import Mathlib

/-!
Verification of RPChat core components against their specification.

The development shallowly embeds the Python modules `core/config_manager.py`,
`core/storage_manager.py`, `core/api_client.py`, `core/voice_handler.py` and
`utils/text_utils.py`: pure methods become Lean functions, the SQLite-backed
storage manager becomes explicit state passing over a `DBState` record, and
exception-raising code returns `Option`/`Except` values.
-/

/-- Python/TOML/JSON-style values, as manipulated by `ConfigManager` and the
API client's response parser: strings, integers, booleans, lists, and
string-keyed dictionaries (dictionaries are association lists, keys unique
in any value produced by Python's `dict`). -/
inductive PyVal where
  | str (s : String)
  | int (n : Int)
  | bool (b : Bool)
  | list (xs : List PyVal)
  | dict (entries : List (String × PyVal))

/-- Dictionary lookup `d[k]` / `k in d`: first entry with the given key. -/
def lookupKey : List (String × PyVal) → String → Option PyVal
  | [], _ => none
  | (k, v) :: rest, key => if k = key then some v else lookupKey rest key

/-- Dictionary update `d[k] = v`: replace the first entry with the given key,
or append a new entry when the key is absent. -/
def setKey : List (String × PyVal) → String → PyVal → List (String × PyVal)
  | [], key, val => [(key, val)]
  | (k, v) :: rest, key, val =>
      if k = key then (key, val) :: rest else (k, v) :: setKey rest key val

mutual
/-- The value `ConfigManager._merge_configs` stores under one user key
(config_manager.py:185-189): when the key is already present in `merged` with
a dictionary value and the user's value is also a dictionary, the two are
merged recursively; otherwise the user's value is taken as is. -/
def mergeOne (merged : List (String × PyVal)) (key : String) (value : PyVal) :
    PyVal :=
  match lookupKey merged key, value with
  | some (PyVal.dict d), PyVal.dict u => PyVal.dict (merge_configs d u)
  | _, _ => value
termination_by sizeOf value

/-- Embedding of `ConfigManager._merge_configs` (config_manager.py:172-191):
starting from a copy of `merged` (initially the default configuration), walk
the user configuration's entries in order, storing `mergeOne` of each. -/
def merge_configs : List (String × PyVal) → List (String × PyVal) →
    List (String × PyVal)
  | merged, [] => merged
  | merged, (key, value) :: rest =>
      merge_configs (setKey merged key (mergeOne merged key value)) rest
termination_by _ user => sizeOf user
end

theorem lookupKey_setKey_self (m : List (String × PyVal)) (k : String) (v : PyVal) :
    lookupKey (setKey m k v) k = some v := by
  induction m with
  | nil => simp [setKey, lookupKey]
  | cons hd tl ih =>
      obtain ⟨k', v'⟩ := hd
      by_cases h : k' = k
      · simp [setKey, lookupKey, h]
      · simp [setKey, lookupKey, h, ih]

theorem lookupKey_setKey_ne (m : List (String × PyVal)) (k k' : String) (v : PyVal)
    (h : k' ≠ k) : lookupKey (setKey m k v) k' = lookupKey m k' := by
  have hks : ¬ k = k' := fun hh => h hh.symm
  induction m with
  | nil => simp [setKey, lookupKey, hks]
  | cons hd tl ih =>
      obtain ⟨k₀, v₀⟩ := hd
      by_cases h₀ : k₀ = k
      · subst h₀
        simp [setKey, lookupKey, hks]
      · by_cases h₁ : k₀ = k'
        · subst h₁
          simp [setKey, lookupKey, h₀]
        · simp [setKey, lookupKey, h₀, h₁, ih]

theorem lookupKey_eq_none_of_not_mem (m : List (String × PyVal)) (k : String)
    (h : k ∉ m.map Prod.fst) : lookupKey m k = none := by
  induction m with
  | nil => rfl
  | cons hd tl ih =>
      obtain ⟨k₀, v₀⟩ := hd
      simp only [List.map_cons, List.mem_cons] at h
      push_neg at h
      have hne : ¬ k₀ = k := fun hh => h.1 hh.symm
      simp [lookupKey, hne, ih h.2]

theorem mergeOne_congr (m m' : List (String × PyVal)) (k : String) (v : PyVal)
    (h : lookupKey m k = lookupKey m' k) : mergeOne m k v = mergeOne m' k v := by
  rw [mergeOne.eq_def, mergeOne.eq_def, h]

theorem mergeOne_dict_dict (m : List (String × PyVal)) (k : String)
    (d u : List (String × PyVal)) (h : lookupKey m k = some (PyVal.dict d)) :
    mergeOne m k (PyVal.dict u) = PyVal.dict (merge_configs d u) := by
  rw [mergeOne.eq_def, h]

theorem mergeOne_not_both (m : List (String × PyVal)) (k : String) (v : PyVal)
    (h : ∀ d u, lookupKey m k = some (PyVal.dict d) → v ≠ PyVal.dict u) :
    mergeOne m k v = v := by
  rw [mergeOne.eq_def]
  split
  · rename_i d u hlk
    exact absurd rfl (h d u hlk)
  · rfl

theorem merge_configs_lookup (user : List (String × PyVal))
    (hnd : (user.map Prod.fst).Nodup) (merged : List (String × PyVal)) (k : String) :
    lookupKey (merge_configs merged user) k =
      match lookupKey user k with
      | none => lookupKey merged k
      | some uv => some (mergeOne merged k uv) := by
  induction user generalizing merged with
  | nil => simp [merge_configs, lookupKey]
  | cons hd rest ih =>
      obtain ⟨key, value⟩ := hd
      simp only [List.map_cons, List.nodup_cons] at hnd
      rw [merge_configs]
      rw [ih hnd.2]
      by_cases hk : key = k
      · subst hk
        rw [lookupKey_eq_none_of_not_mem rest key hnd.1]
        simp [lookupKey, lookupKey_setKey_self]
      · have hne : ¬ k = key := fun hh => hk hh.symm
        rw [lookupKey_setKey_ne _ _ _ _ hne]
        have hmo : ∀ uv, mergeOne (setKey merged key (mergeOne merged key value)) k uv =
            mergeOne merged k uv := fun uv =>
          mergeOne_congr _ _ _ _ (lookupKey_setKey_ne _ _ _ _ hne)
        simp only [hmo]
        simp [lookupKey, hk]

/-- C2: every key present in the user configuration takes the user's value in
the output of `ConfigManager._merge_configs` (recursively merged when both the
default and the user hold dictionaries under that key), and every key present
only in the default configuration keeps the default value: defaults are merged
under user overrides. The user configuration comes from a Python `dict`, so
its keys are distinct. -/
theorem merge_configs_spec (dflt user : List (String × PyVal))
    (hnd : (user.map Prod.fst).Nodup) :
    (∀ k, lookupKey user k = none →
        lookupKey (merge_configs dflt user) k = lookupKey dflt k) ∧
    (∀ k d u, lookupKey dflt k = some (PyVal.dict d) →
        lookupKey user k = some (PyVal.dict u) →
        lookupKey (merge_configs dflt user) k =
          some (PyVal.dict (merge_configs d u))) ∧
    (∀ k uv, lookupKey user k = some uv →
        (∀ d u, lookupKey dflt k = some (PyVal.dict d) → uv ≠ PyVal.dict u) →
        lookupKey (merge_configs dflt user) k = some uv) := by
  refine ⟨fun k hk => ?_, fun k d u hd hu => ?_, fun k uv hu hnb => ?_⟩
  · rw [merge_configs_lookup user hnd dflt k, hk]
  · rw [merge_configs_lookup user hnd dflt k, hu]
    show some (mergeOne dflt k (PyVal.dict u)) = some (PyVal.dict (merge_configs d u))
    rw [mergeOne_dict_dict dflt k d u hd]
  · rw [merge_configs_lookup user hnd dflt k, hu]
    show some (mergeOne dflt k uv) = some uv
    rw [mergeOne_not_both dflt k uv hnb]

/-- Witness for C2 at a concrete pair of configurations. -/
theorem merge_configs_spec_witness :
    lookupKey
        (merge_configs
          [("a", PyVal.int 1), ("b", PyVal.dict [("x", PyVal.int 2), ("y", PyVal.int 3)])]
          [("b", PyVal.dict [("y", PyVal.int 9)]), ("c", PyVal.int 7)]) "a" =
      some (PyVal.int 1) ∧
    lookupKey
        (merge_configs
          [("a", PyVal.int 1), ("b", PyVal.dict [("x", PyVal.int 2), ("y", PyVal.int 3)])]
          [("b", PyVal.dict [("y", PyVal.int 9)]), ("c", PyVal.int 7)]) "b" =
      some (PyVal.dict
        (merge_configs [("x", PyVal.int 2), ("y", PyVal.int 3)] [("y", PyVal.int 9)])) := by
  constructor
  · exact (merge_configs_spec
      [("a", PyVal.int 1), ("b", PyVal.dict [("x", PyVal.int 2), ("y", PyVal.int 3)])]
      [("b", PyVal.dict [("y", PyVal.int 9)]), ("c", PyVal.int 7)]
      (by simp)).1 "a" (by rfl)
  · exact ((merge_configs_spec
      [("a", PyVal.int 1), ("b", PyVal.dict [("x", PyVal.int 2), ("y", PyVal.int 3)])]
      [("b", PyVal.dict [("y", PyVal.int 9)]), ("c", PyVal.int 7)]
      (by simp)).2).1 "b" [("x", PyVal.int 2), ("y", PyVal.int 3)] [("y", PyVal.int 9)]
      (by rfl) (by rfl)

/-- Python's `key.split('.')` (config_manager.py:98), character by character:
an empty key yields `[""]`, and consecutive dots yield empty components,
exactly as in Python `str.split` with an explicit separator. -/
def splitKeyAux : List Char → List Char → List String
  | [], acc => [String.mk acc.reverse]
  | c :: cs, acc =>
      if c = '.' then String.mk acc.reverse :: splitKeyAux cs []
      else splitKeyAux cs (c :: acc)

def splitKey (s : String) : List String := splitKeyAux s.toList []

/-- The lookup loop of `ConfigManager.get` (config_manager.py:98-107):
`value = value[k]` for each component, where Python raises `KeyError` when a
dictionary misses the key and `TypeError` when a non-dictionary is indexed by
a string; both exceptions are modelled as `none` because `get` catches
exactly `(KeyError, TypeError)`. -/
def config_get_walk : PyVal → List String → Option PyVal
  | v, [] => some v
  | PyVal.dict entries, k :: rest =>
      match lookupKey entries k with
      | some v => config_get_walk v rest
      | none => none
  | _, _ :: _ => none

/-- Embedding of `ConfigManager.get` (config_manager.py:87-107): split the key
on dots, walk the configuration, and return the supplied default when the walk
fails. The Lean function is total, mirroring that `get` catches every
exception its loop can raise and never propagates one. -/
def config_get (config : List (String × PyVal)) (key : String) (dflt : PyVal) :
    PyVal :=
  match config_get_walk (PyVal.dict config) (splitKey key) with
  | some v => v
  | none => dflt

/-- Specification-side predicate: every component of the path exists as a
dictionary entry along the walk, ending at value `w`. -/
inductive PathLeadsTo : PyVal → List String → PyVal → Prop
  | nil (v : PyVal) : PathLeadsTo v [] v
  | cons (entries : List (String × PyVal)) (k : String) (rest : List String)
      (v w : PyVal) : lookupKey entries k = some v → PathLeadsTo v rest w →
      PathLeadsTo (PyVal.dict entries) (k :: rest) w

theorem config_get_walk_some_iff (ks : List String) (v w : PyVal) :
    config_get_walk v ks = some w ↔ PathLeadsTo v ks w := by
  induction ks generalizing v with
  | nil =>
      constructor
      · intro h
        simp only [config_get_walk, Option.some.injEq] at h
        subst h
        exact PathLeadsTo.nil v
      · intro h
        cases h
        simp [config_get_walk]
  | cons k rest ih =>
      cases v with
      | dict entries =>
          cases hlk : lookupKey entries k with
          | none =>
              simp only [config_get_walk, hlk]
              constructor
              · intro h
                exact Option.noConfusion h
              · intro h
                cases h with
                | cons _ _ _ v' _ hlk' _ =>
                    rw [hlk] at hlk'
                    exact Option.noConfusion hlk'
          | some v' =>
              simp only [config_get_walk, hlk]
              constructor
              · intro h
                exact PathLeadsTo.cons entries k rest v' w hlk ((ih v').mp h)
              · intro h
                cases h with
                | cons _ _ _ v'' _ hlk' hrest =>
                    rw [hlk] at hlk'
                    cases hlk'
                    exact (ih v').mpr hrest
      | str s =>
          simp only [config_get_walk]
          constructor
          · intro h
            exact Option.noConfusion h
          · intro h
            cases h
      | int n =>
          simp only [config_get_walk]
          constructor
          · intro h
            exact Option.noConfusion h
          · intro h
            cases h
      | bool b =>
          simp only [config_get_walk]
          constructor
          · intro h
            exact Option.noConfusion h
          · intro h
            cases h
      | list xs =>
          simp only [config_get_walk]
          constructor
          · intro h
            exact Option.noConfusion h
          · intro h
            cases h

/-- C9: `ConfigManager.get` never raises; it returns the stored value when
every component of the dotted key path exists as a dictionary entry along the
path, and returns the supplied default whenever any component is missing or a
non-dictionary value is reached before the last component. -/
theorem config_get_spec (config : List (String × PyVal)) (key : String)
    (dflt : PyVal) :
    (∀ w, PathLeadsTo (PyVal.dict config) (splitKey key) w →
        config_get config key dflt = w) ∧
    ((∀ w, ¬ PathLeadsTo (PyVal.dict config) (splitKey key) w) →
        config_get config key dflt = dflt) := by
  constructor
  · intro w hw
    have h := (config_get_walk_some_iff (splitKey key) (PyVal.dict config) w).mpr hw
    simp only [config_get, h]
  · intro hnone
    unfold config_get
    cases hwalk : config_get_walk (PyVal.dict config) (splitKey key) with
    | none => rfl
    | some w =>
        exact absurd ((config_get_walk_some_iff _ _ _).mp hwalk) (hnone w)

/-- Witness for C9: a present nested key returns the stored value, an absent
key returns the default. -/
theorem config_get_spec_witness :
    config_get [("api", PyVal.dict [("model", PyVal.str "gpt")])] "api.model"
      (PyVal.str "fallback") = PyVal.str "gpt" ∧
    config_get [("api", PyVal.dict [("model", PyVal.str "gpt")])] "nope"
      (PyVal.str "fallback") = PyVal.str "fallback" := by
  constructor
  · exact (config_get_spec [("api", PyVal.dict [("model", PyVal.str "gpt")])]
      "api.model" (PyVal.str "fallback")).1 (PyVal.str "gpt")
      (by
        rw [show splitKey "api.model" = ["api", "model"] from rfl]
        exact PathLeadsTo.cons _ "api" ["model"] (PyVal.dict [("model", PyVal.str "gpt")])
          (PyVal.str "gpt") rfl
          (PathLeadsTo.cons _ "model" [] (PyVal.str "gpt") (PyVal.str "gpt") rfl
            (PathLeadsTo.nil _)))
  · exact (config_get_spec [("api", PyVal.dict [("model", PyVal.str "gpt")])]
      "nope" (PyVal.str "fallback")).2
      (by
        rw [show splitKey "nope" = ["nope"] from rfl]
        intro w h
        cases h with
        | cons _ _ _ v _ hlk _ =>
            rw [show lookupKey [("api", PyVal.dict [("model", PyVal.str "gpt")])] "nope"
              = none from rfl] at hlk
            exact Option.noConfusion hlk)

/-- A row of the `conversations` table (storage_manager.py:123-133).
Timestamps are modelled as naturals: the code stores ISO-8601 UTC strings,
whose lexicographic order agrees with chronological order. `message_count`
is a SQLite INTEGER. The `metadata` column is never written by any operation
and stays at its `'{}'` default, so it is omitted. -/
structure ConvRow where
  id : String
  title : String
  created_at : Nat
  updated_at : Nat
  message_count : Int
  model : String
deriving DecidableEq

/-- A row of the `messages` table (storage_manager.py:136-147). As with
conversations, the never-written `metadata` column is omitted. -/
structure MsgRow where
  id : Nat
  conversation_id : String
  role : String
  content : String
  timestamp : Nat
deriving DecidableEq

/-- The state of the StorageManager database. `nextMsgId` models the
AUTOINCREMENT sequence of `messages.id` (first row gets 1). `foreignKeysOn`
models the per-connection SQLite `foreign_keys` pragma, which governs whether
the declared `ON DELETE CASCADE` fires: SQLite leaves it OFF unless
`PRAGMA foreign_keys = ON` is executed, and neither `StorageManager.initialize`
nor `_create_tables` (storage_manager.py:105-161) executes any PRAGMA. -/
structure DBState where
  conversations : List ConvRow
  messages : List MsgRow
  nextMsgId : Nat
  foreignKeysOn : Bool
deriving DecidableEq

/-- The freshly initialized database (storage_manager.py:105-161): empty
tables, message rowids starting at 1, foreign-key enforcement at SQLite's
default (off, as no PRAGMA is ever issued). -/
def initialState : DBState := ⟨[], [], 1, false⟩

/-- The conversation id generated by `create_conversation`
(storage_manager.py:178): a microsecond timestamp rendered into a string. -/
def conv_id (now : Nat) : String := "conv_" ++ toString now

/-- Embedding of `StorageManager.create_conversation`
(storage_manager.py:163-202): INSERT a conversation row; `message_count`
takes the column default 0. -/
def create_conversation (s : DBState) (title model : String) (now : Nat) :
    ConvRow × DBState :=
  let conv : ConvRow := ⟨conv_id now, title, now, now, 0, model⟩
  (conv, { s with conversations := s.conversations ++ [conv] })

/-- Embedding of `StorageManager.get_conversation`
(storage_manager.py:241-271): SELECT the row WHERE id matches. -/
def get_conversation (s : DBState) (cid : String) : Option ConvRow :=
  s.conversations.find? (fun c => c.id = cid)

/-- Embedding of `StorageManager.update_conversation`
(storage_manager.py:273-298): UPDATE title, updated_at, message_count and
model of every row WHERE id matches, the values taken from the passed
`Conversation` object. -/
def update_conversation (s : DBState) (c : ConvRow) (now : Nat) : DBState :=
  { s with conversations := s.conversations.map (fun r =>
      if r.id = c.id then
        { r with title := c.title, updated_at := now,
                 message_count := c.message_count, model := c.model }
      else r) }

/-- Embedding of `StorageManager.delete_conversation`
(storage_manager.py:300-315): DELETE FROM conversations WHERE id matches.
The `messages` table is cascaded only when the connection enforces foreign
keys. -/
def delete_conversation (s : DBState) (cid : String) : DBState :=
  { s with
    conversations := s.conversations.filter (fun c => c.id ≠ cid),
    messages :=
      if s.foreignKeysOn then s.messages.filter (fun m => m.conversation_id ≠ cid)
      else s.messages }

/-- Embedding of `StorageManager.add_message` (storage_manager.py:317-363):
INSERT the message (id from AUTOINCREMENT), UPDATE the owning conversation's
message_count to message_count + 1, and return a `StoredMessage` built from
the inputs and the new rowid. Without foreign-key enforcement the INSERT
succeeds even for an unknown conversation id. -/
def add_message (s : DBState) (cid role content : String) (now : Nat) :
    MsgRow × DBState :=
  let msg : MsgRow := ⟨s.nextMsgId, cid, role, content, now⟩
  (msg, { s with
    messages := s.messages ++ [msg],
    nextMsgId := s.nextMsgId + 1,
    conversations := s.conversations.map (fun c =>
      if c.id = cid then
        { c with message_count := c.message_count + 1, updated_at := now }
      else c) })

/-- Insertion of one message into a timestamp-sorted list, for `ORDER BY
timestamp ASC`. -/
def insertByTs (m : MsgRow) : List MsgRow → List MsgRow
  | [] => [m]
  | x :: xs => if m.timestamp < x.timestamp then m :: x :: xs else x :: insertByTs m xs

/-- Sorting by timestamp, for `ORDER BY timestamp ASC`. -/
def sortByTs : List MsgRow → List MsgRow
  | [] => []
  | x :: xs => insertByTs x (sortByTs xs)

/-- Embedding of `StorageManager.get_messages` (storage_manager.py:365-403):
SELECT the messages WHERE conversation_id matches, ORDER BY timestamp ASC,
LIMIT `limit`. -/
def get_messages (s : DBState) (cid : String) (limit : Nat) : List MsgRow :=
  (sortByTs (s.messages.filter (fun m => m.conversation_id = cid))).take limit

theorem insertByTs_perm (m : MsgRow) (l : List MsgRow) :
    List.Perm (insertByTs m l) (m :: l) := by
  induction l with
  | nil => simp [insertByTs]
  | cons x xs ih =>
      rw [insertByTs]
      by_cases h : m.timestamp < x.timestamp
      · rw [if_pos h]
      · rw [if_neg h]
        exact List.Perm.trans (List.Perm.cons x ih) (List.Perm.swap m x xs)

theorem sortByTs_perm (l : List MsgRow) : List.Perm (sortByTs l) l := by
  induction l with
  | nil => simp [sortByTs]
  | cons x xs ih =>
      rw [sortByTs]
      exact List.Perm.trans (insertByTs_perm x (sortByTs xs)) (List.Perm.cons x ih)

/-- C1: a message stored with `StorageManager.add_message` and then retrieved
with `StorageManager.get_messages` for the same conversation comes back
unchanged: the returned `StoredMessage` carries exactly the conversation id,
role and content that were passed in, and that very record is among the rows
`get_messages` returns (provided the LIMIT is not smaller than the number of
the conversation's messages, so the new row is not cut off). -/
theorem add_message_roundtrip (s : DBState) (cid role content : String)
    (now : Nat) (limit : Nat)
    (hlim : (s.messages.filter (fun m => m.conversation_id = cid)).length < limit) :
    (add_message s cid role content now).1.conversation_id = cid ∧
    (add_message s cid role content now).1.role = role ∧
    (add_message s cid role content now).1.content = content ∧
    (add_message s cid role content now).1 ∈
      get_messages (add_message s cid role content now).2 cid limit := by
  refine ⟨rfl, rfl, rfl, ?_⟩
  set msg : MsgRow := ⟨s.nextMsgId, cid, role, content, now⟩ with hmsg
  have hmsgs : (add_message s cid role content now).2.messages = s.messages ++ [msg] := rfl
  unfold get_messages
  rw [hmsgs, List.filter_append]
  have hself : List.filter (fun m => m.conversation_id = cid) [msg] = [msg] := by
    simp [msg]
  rw [hself]
  set fl := s.messages.filter (fun m => m.conversation_id = cid) ++ [msg] with hfl
  have hperm := sortByTs_perm fl
  have hlen : (sortByTs fl).length = fl.length := hperm.length_eq
  have hlen2 : fl.length ≤ limit := by
    rw [hfl]
    simp only [List.length_append, List.length_cons, List.length_nil]
    omega
  rw [List.take_of_length_le (by omega)]
  rw [hperm.mem_iff]
  rw [hfl]
  exact List.mem_append_right _ (List.mem_singleton.mpr rfl)

/-- Witness for C1 on the empty database. -/
theorem add_message_roundtrip_witness :
    (add_message initialState "c1" "user" "hi" 5).1.conversation_id = "c1" ∧
    (add_message initialState "c1" "user" "hi" 5).1.role = "user" ∧
    (add_message initialState "c1" "user" "hi" 5).1.content = "hi" ∧
    (add_message initialState "c1" "user" "hi" 5).1 ∈
      get_messages (add_message initialState "c1" "user" "hi" 5).2 "c1" 100 :=
  add_message_roundtrip initialState "c1" "user" "hi" 5 100 (by decide)

/-- C3 (code evidence): `StorageManager.delete_conversation` removes the
conversation row, but because no `PRAGMA foreign_keys = ON` is ever executed
SQLite does not enforce the declared `ON DELETE CASCADE`, so the
conversation's messages survive and a subsequent `get_messages` still returns
them instead of the empty list. Concretely: create a conversation, add one
message, delete the conversation — the conversation is gone yet the message
is still retrieved. -/
theorem delete_conversation_no_cascade :
    get_conversation
        (delete_conversation
          (add_message (create_conversation initialState "t" "gpt" 0).2
            (conv_id 0) "user" "hi" 1).2
          (conv_id 0))
        (conv_id 0) = none ∧
    get_messages
        (delete_conversation
          (add_message (create_conversation initialState "t" "gpt" 0).2
            (conv_id 0) "user" "hi" 1).2
          (conv_id 0))
        (conv_id 0) 100 = [⟨1, conv_id 0, "user", "hi", 1⟩] := by
  constructor
  · rfl
  · rfl

/-- Helper: `msg_count` of a conversation, as read back by
`get_conversation`. -/
def msg_count (s : DBState) (cid : String) : Option Int :=
  (get_conversation s cid).map (fun c => c.message_count)

/-- The state-changing StorageManager operations (the read-only ones do not
touch the database). `import_conversation` is a composition of
`create_conversation` and `add_message` and is covered by those. -/
inductive StorageOp where
  | createConv (title model : String) (now : Nat)
  | updateConv (c : ConvRow) (now : Nat)
  | deleteConv (cid : String)
  | addMsg (cid role content : String) (now : Nat)

def applyOp (s : DBState) : StorageOp → DBState
  | .createConv t m now => (create_conversation s t m now).2
  | .updateConv c now => update_conversation s c now
  | .deleteConv cid => delete_conversation s cid
  | .addMsg cid role content now => (add_message s cid role content now).2

/-- C4 counterexample: a reachable operation sequence in which a
conversation's stored `message_count` decreases. After creating a
conversation and adding one message the count is 1; `update_conversation`
with a `Conversation` object still carrying `message_count = 0` (exactly what
`ChatWidget._update_conversation_title` passes: the in-memory object is never
incremented by `add_message`) writes the count back to 0. -/
theorem message_count_decrease_counterexample :
    msg_count
        (add_message (create_conversation initialState "t" "gpt" 0).2
          (conv_id 0) "user" "hi" 1).2
        (conv_id 0) = some 1 ∧
    msg_count
        (update_conversation
          (add_message (create_conversation initialState "t" "gpt" 0).2
            (conv_id 0) "user" "hi" 1).2
          ⟨conv_id 0, "t", 0, 0, 0, "gpt"⟩ 2)
        (conv_id 0) = some 0 := by
  constructor
  · rfl
  · rfl

theorem find?_append_of_some {α : Type} (l₁ l₂ : List α) (p : α → Bool) (a : α)
    (h : l₁.find? p = some a) : (l₁ ++ l₂).find? p = some a := by
  induction l₁ with
  | nil => exact absurd h (by simp)
  | cons x xs ih =>
      cases hp : p x with
      | true =>
          rw [List.find?_cons_of_pos _ hp] at h
          rw [List.cons_append, List.find?_cons_of_pos _ hp]
          exact h
      | false =>
          rw [List.find?_cons_of_neg _ (by simp [hp])] at h
          rw [List.cons_append, List.find?_cons_of_neg _ (by simp [hp])]
          exact ih h

theorem find?_filter_of_imp {α : Type} (l : List α) (p q : α → Bool)
    (h : ∀ x, q x = true → p x = true) : (l.filter p).find? q = l.find? q := by
  induction l with
  | nil => rfl
  | cons x xs ih =>
      cases hq : q x with
      | true =>
          rw [List.filter_cons_of_pos (h x hq)]
          rw [List.find?_cons_of_pos _ hq, List.find?_cons_of_pos _ hq]
      | false =>
          by_cases hp : p x = true
          · rw [List.filter_cons_of_pos hp]
            rw [List.find?_cons_of_neg _ (by simp [hq]), List.find?_cons_of_neg _ (by simp [hq])]
            exact ih
          · rw [List.filter_cons_of_neg (by simpa using hp)]
            rw [List.find?_cons_of_neg _ (by simp [hq])]
            exact ih

theorem find?_map_guard (l : List ConvRow) (tid cid : String)
    (f : ConvRow → ConvRow) (hf : ∀ c, (f c).id = c.id) :
    (l.map (fun c => if c.id = tid then f c else c)).find?
        (fun c => c.id = cid) =
      (l.find? (fun c => c.id = cid)).map
        (fun c => if c.id = tid then f c else c) := by
  induction l with
  | nil => rfl
  | cons x xs ih =>
      rw [List.map_cons]
      have hid : (if x.id = tid then f x else x).id = x.id := by
        by_cases hx : x.id = tid
        · rw [if_pos hx, hf]
        · rw [if_neg hx]
      cases hq : decide (x.id = cid) with
      | true =>
          have h1 : List.find? (fun c => decide (c.id = cid))
              ((if x.id = tid then f x else x) ::
                xs.map (fun c => if c.id = tid then f c else c)) =
              some (if x.id = tid then f x else x) :=
            List.find?_cons_of_pos _ (by simp only [hid]; exact hq)
          have h2 : List.find? (fun c => decide (c.id = cid)) (x :: xs) = some x :=
            List.find?_cons_of_pos xs hq
          rw [h1, h2]
          rfl
      | false =>
          have h1 : List.find? (fun c => decide (c.id = cid))
              ((if x.id = tid then f x else x) ::
                xs.map (fun c => if c.id = tid then f c else c)) =
              List.find? (fun c => decide (c.id = cid))
                (xs.map (fun c => if c.id = tid then f c else c)) :=
            List.find?_cons_of_neg _ (by simp only [hid]; simp [hq])
          have h2 : List.find? (fun c => decide (c.id = cid)) (x :: xs) =
              List.find? (fun c => decide (c.id = cid)) xs :=
            List.find?_cons_of_neg xs (by simp [hq])
          rw [h1, h2]
          exact ih

/-- C4 (amended): each `add_message` increases the owning conversation's
stored `message_count` by exactly one, and no operation other than
`update_conversation` ever decreases a conversation's `message_count`.
`update_conversation` itself overwrites the stored count with whatever count
the caller's `Conversation` object carries, which can be smaller (see the
counterexample), so the increase is monotone only away from it. -/
theorem message_count_monotone_amended (s : DBState) :
    (∀ cid role content now k,
        msg_count s cid = some k →
        msg_count (add_message s cid role content now).2 cid = some (k + 1)) ∧
    (∀ op : StorageOp, (∀ c now, op ≠ StorageOp.updateConv c now) →
        ∀ cid k k', msg_count s cid = some k →
          msg_count (applyOp s op) cid = some k' → k ≤ k') := by
  have hadd : ∀ cid role content now k,
      msg_count s cid = some k →
      msg_count (add_message s cid role content now).2 cid = some (k + 1) := by
    intro cid role content now k h
    cases hfind : s.conversations.find? (fun c => c.id = cid) with
    | none => simp [msg_count, get_conversation, hfind] at h
    | some c =>
        simp only [msg_count, get_conversation, hfind, Option.map_some',
          Option.some.injEq] at h
        have hfc : c.id = cid := by
          have := List.find?_some hfind
          simpa using this
        have hmap := find?_map_guard s.conversations cid cid
          (fun c => { c with message_count := c.message_count + 1, updated_at := now })
          (fun _ => rfl)
        simp only [msg_count, get_conversation, add_message, hmap, hfind,
          Option.map_some']
        rw [if_pos hfc]
        simp only [Option.some.injEq]
        omega
  refine ⟨hadd, ?_⟩
  intro op hop cid k k' h h'
  cases op with
  | updateConv c now => exact absurd rfl (hop c now)
  | createConv t m now =>
      cases hfind : s.conversations.find? (fun c => c.id = cid) with
      | none => simp [msg_count, get_conversation, hfind] at h
      | some c =>
          simp only [msg_count, get_conversation, hfind, Option.map_some',
          Option.some.injEq] at h
          have happ := find?_append_of_some s.conversations
            [⟨conv_id now, t, now, now, 0, m⟩] (fun c => c.id = cid) c hfind
          simp only [applyOp, msg_count, get_conversation, create_conversation,
            happ, Option.map_some', Option.some.injEq] at h'
          omega
  | deleteConv dcid =>
      by_cases hc : cid = dcid
      · subst hc
        exfalso
        simp only [applyOp, msg_count, get_conversation, delete_conversation] at h'
        cases hfind : (s.conversations.filter (fun c => c.id ≠ cid)).find?
            (fun c => c.id = cid) with
        | none => rw [hfind] at h'; simp at h'
        | some c =>
            have hq := List.find?_some hfind
            have hmem := List.mem_of_find?_eq_some hfind
            have hpc := List.of_mem_filter hmem
            simp at hq hpc
            exact hpc hq
      · cases hfind : s.conversations.find? (fun c => c.id = cid) with
        | none => simp [msg_count, get_conversation, hfind] at h
        | some c =>
            simp only [msg_count, get_conversation, hfind, Option.map_some',
          Option.some.injEq] at h
            have hflt := find?_filter_of_imp s.conversations
              (fun c => c.id ≠ dcid) (fun c => c.id = cid)
              (by
                intro x hx
                simp at hx ⊢
                rw [hx]
                exact hc)
            simp only [applyOp, msg_count, get_conversation, delete_conversation,
              hflt, hfind, Option.map_some', Option.some.injEq] at h'
            omega
  | addMsg mcid role content now =>
      cases hfind : s.conversations.find? (fun c => c.id = cid) with
      | none => simp [msg_count, get_conversation, hfind] at h
      | some c =>
          simp only [msg_count, get_conversation, hfind, Option.map_some',
          Option.some.injEq] at h
          have hfc : c.id = cid := by
            have := List.find?_some hfind
            simpa using this
          have hmap := find?_map_guard s.conversations mcid cid
            (fun c => { c with message_count := c.message_count + 1, updated_at := now })
            (fun _ => rfl)
          simp only [applyOp, msg_count, get_conversation, add_message, hmap,
            hfind, Option.map_some'] at h'
          by_cases hm : c.id = mcid
          · rw [if_pos hm] at h'
            simp only [Option.some.injEq] at h'
            omega
          · rw [if_neg hm] at h'
            simp only [Option.some.injEq] at h'
            omega

/-- Witness for the amended C4 theorem: on a one-conversation database,
`add_message` takes the count from 0 to 1, and deleting an unrelated
conversation does not decrease it. -/
theorem message_count_monotone_amended_witness :
    msg_count
        (add_message (create_conversation initialState "t" "gpt" 0).2
          (conv_id 0) "user" "hi" 1).2
        (conv_id 0) = some (0 + 1) ∧
    (0 : Int) ≤ 0 := by
  constructor
  · exact (message_count_monotone_amended
      (create_conversation initialState "t" "gpt" 0).2).1
      (conv_id 0) "user" "hi" 1 0 (by rfl)
  · exact ((message_count_monotone_amended
      (create_conversation initialState "t" "gpt" 0).2).2
      (StorageOp.deleteConv "other") (by intro c now hne; cases hne)
      (conv_id 0) 0 0 (by rfl) (by rfl))

/-- Python's prefix slice `s[:k]` for an `int` bound `k` over the string's
characters: a non-negative bound takes at most `k` leading characters, a
negative bound drops the last `|k|` characters (clamped at the ends either
way). -/
def pySliceTo (s : List Char) (k : Int) : List Char :=
  if 0 ≤ k then s.take k.toNat else s.take (s.length - (-k).toNat)

/-- Embedding of `TextProcessor.truncate_text` (text_utils.py:41-57) over the
text's characters; `max_length` keeps Python's `int` type. An empty or
short-enough text is returned unchanged, otherwise the text is cut to
`max_length - len(suffix)` characters and the suffix appended. -/
def truncate_text (text : List Char) (max_length : Int) (suffix : List Char) :
    List Char :=
  if text = [] ∨ (text.length : Int) ≤ max_length then text
  else pySliceTo text (max_length - suffix.length) ++ suffix

/-- C10: for every text and every `max_length` at least `len(suffix)`,
`TextProcessor.truncate_text` returns the text unchanged when its length is
at most `max_length`, and otherwise returns a string of exactly `max_length`
characters consisting of a prefix of the text followed by the suffix. -/
theorem truncate_text_spec (text : List Char) (max_length : Int)
    (suffix : List Char) (hsuf : (suffix.length : Int) ≤ max_length) :
    ((text.length : Int) ≤ max_length →
        truncate_text text max_length suffix = text) ∧
    (max_length < (text.length : Int) →
        (truncate_text text max_length suffix).length = max_length.toNat ∧
        ∃ p q, text = p ++ q ∧
          truncate_text text max_length suffix = p ++ suffix) := by
  constructor
  · intro h
    unfold truncate_text
    rw [if_pos (Or.inr h)]
  · intro h
    have hcond : ¬ (text = [] ∨ (text.length : Int) ≤ max_length) := by
      push_neg
      constructor
      · intro he
        subst he
        simp at h
        omega
      · omega
    unfold truncate_text
    rw [if_neg hcond]
    have hk : 0 ≤ max_length - (suffix.length : Int) := by omega
    unfold pySliceTo
    rw [if_pos hk]
    have hkle : (max_length - (suffix.length : Int)).toNat ≤ text.length := by omega
    refine ⟨?_, text.take (max_length - (suffix.length : Int)).toNat,
      text.drop (max_length - (suffix.length : Int)).toNat,
      (List.take_append_drop _ text).symm, rfl⟩
    simp only [List.length_append, List.length_take]
    omega

/-- Witness for C10: a short text passes through, a long one is cut to
exactly `max_length` characters. -/
theorem truncate_text_spec_witness :
    truncate_text ['h', 'i'] 8 ['.', '.', '.'] = ['h', 'i'] ∧
    (truncate_text ['h', 'e', 'l', 'l', 'o', ' ', 'w', 'o', 'r', 'l', 'd'] 8
      ['.', '.', '.']).length = (8 : Int).toNat := by
  constructor
  · exact (truncate_text_spec ['h', 'i'] 8 ['.', '.', '.'] (by decide)).1 (by decide)
  · exact ((truncate_text_spec ['h', 'e', 'l', 'l', 'o', ' ', 'w', 'o', 'r', 'l', 'd']
      8 ['.', '.', '.'] (by decide)).2 (by decide)).1

/-- What the single HTTP POST of `OpenAIAPIClient.chat_completion` can yield:
an `aiohttp.ClientError`, any other exception while requesting or reading,
or an HTTP response with a status and a body (`none` models a body that is
not valid JSON, so that `response.json()` raises). -/
inductive HttpOutcome where
  | clientError
  | otherError
  | response (status : Nat) (body : Option PyVal)

/-- The `ChatResponse` dataclass (api_client.py:22-28); field values are kept
as Python values. -/
structure ChatResponse where
  content : PyVal
  model : PyVal
  usage : PyVal
  finish_reason : PyVal

/-- Python `v[k]` for a string key: succeeds only on a dictionary holding the
key; a missing key raises `KeyError` and a non-dictionary raises `TypeError`,
both modelled as `none` (the parser catches `KeyError`, and every other
exception is caught by `chat_completion` itself — either way an
`APIClientError` results). -/
def pyIndex (v : PyVal) (k : String) : Option PyVal :=
  match v with
  | PyVal.dict es => lookupKey es k
  | _ => none

/-- Python `v[0]`: the head of a list (an empty list raises `IndexError`),
the first character of a string; indexing anything else raises and is
modelled as `none`. -/
def pyGetItem0 : PyVal → Option PyVal
  | PyVal.list (x :: _) => some x
  | PyVal.str s =>
      match s.toList with
      | c :: _ => some (PyVal.str (String.mk [c]))
      | [] => none
  | _ => none

/-- Embedding of `OpenAIAPIClient._parse_chat_response`
(api_client.py:194-218): pick the first choice's message content and the
response's model; `usage` defaults to the empty dictionary and
`finish_reason` to `"unknown"` when absent; any failure along the way
becomes an error. -/
def parse_chat_response (data : PyVal) : Option ChatResponse := do
  let choices ← pyIndex data "choices"
  let choice ← pyGetItem0 choices
  let message ← pyIndex choice "message"
  let content ← pyIndex message "content"
  let model ← pyIndex data "model"
  pure ⟨content, model, (pyIndex data "usage").getD (PyVal.dict []),
        (pyIndex choice "finish_reason").getD (PyVal.str "unknown")⟩

/-- The handling of the one HTTP outcome by `OpenAIAPIClient.chat_completion`
(api_client.py:113-135): every raised exception is wrapped into
`APIClientError` (modelled as `Except.error ()`), a non-200 status raises,
and a 200 response is parsed. -/
def handle_response (o : HttpOutcome) : Except Unit ChatResponse :=
  match o with
  | HttpOutcome.clientError => Except.error ()
  | HttpOutcome.otherError => Except.error ()
  | HttpOutcome.response status body =>
      if status ≠ 200 then Except.error ()
      else
        match body with
        | none => Except.error ()
        | some data =>
            match parse_chat_response data with
            | none => Except.error ()
            | some r => Except.ok r

/-- The single `session.post` call (api_client.py:119), instrumented with a
request count. -/
def httpPost (world : HttpOutcome) : HttpOutcome × Nat := (world, 1)

/-- Embedding of `OpenAIAPIClient.chat_completion` (api_client.py:96-135):
issue the one POST and handle its outcome; the second component counts the
HTTP requests issued during the call. The method body contains no loop and
no second `post`, so the count is the one of `httpPost`. -/
def chat_completion (world : HttpOutcome) : Except Unit ChatResponse × Nat :=
  let (resp, n) := httpPost world
  (handle_response resp, n)

/-- C5: `OpenAIAPIClient.chat_completion` raises `APIClientError` on every
failure — an HTTP client error, any other request exception, a non-200
status, an unparseable body, or a body missing any of the expected fields
(`choices`, a first choice, its `message`, the message's `content`, the
top-level `model`) — and on a 200 response with a well-formed body returns a
`ChatResponse` whose content is the first choice's message content, whose
model comes from the response, whose usage defaults to the empty dictionary
when absent, and whose finish_reason defaults to `"unknown"` when absent. -/
theorem chat_completion_spec (status : Nat) (body : Option PyVal) :
    (chat_completion HttpOutcome.clientError).1 = Except.error () ∧
    (chat_completion HttpOutcome.otherError).1 = Except.error () ∧
    (status ≠ 200 →
        (chat_completion (HttpOutcome.response status body)).1 = Except.error ()) ∧
    (chat_completion (HttpOutcome.response 200 none)).1 = Except.error () ∧
    (∀ data, pyIndex data "choices" = none →
        (chat_completion (HttpOutcome.response 200 (some data))).1 = Except.error ()) ∧
    (∀ data choices, pyIndex data "choices" = some choices →
        pyGetItem0 choices = none →
        (chat_completion (HttpOutcome.response 200 (some data))).1 = Except.error ()) ∧
    (∀ data choices choice, pyIndex data "choices" = some choices →
        pyGetItem0 choices = some choice → pyIndex choice "message" = none →
        (chat_completion (HttpOutcome.response 200 (some data))).1 = Except.error ()) ∧
    (∀ data choices choice message, pyIndex data "choices" = some choices →
        pyGetItem0 choices = some choice → pyIndex choice "message" = some message →
        pyIndex message "content" = none →
        (chat_completion (HttpOutcome.response 200 (some data))).1 = Except.error ()) ∧
    (∀ data choices choice message content, pyIndex data "choices" = some choices →
        pyGetItem0 choices = some choice → pyIndex choice "message" = some message →
        pyIndex message "content" = some content → pyIndex data "model" = none →
        (chat_completion (HttpOutcome.response 200 (some data))).1 = Except.error ()) ∧
    (∀ data choices choice message content model,
        pyIndex data "choices" = some choices → pyGetItem0 choices = some choice →
        pyIndex choice "message" = some message →
        pyIndex message "content" = some content → pyIndex data "model" = some model →
        (chat_completion (HttpOutcome.response 200 (some data))).1 =
          Except.ok ⟨content, model, (pyIndex data "usage").getD (PyVal.dict []),
            (pyIndex choice "finish_reason").getD (PyVal.str "unknown")⟩) := by
  refine ⟨rfl, rfl, ?_, rfl, ?_, ?_, ?_, ?_, ?_, ?_⟩
  · intro hs
    simp [chat_completion, httpPost, handle_response, hs]
  · intro data h1
    simp [chat_completion, httpPost, handle_response, parse_chat_response, h1]
  · intro data choices h1 h2
    simp [chat_completion, httpPost, handle_response, parse_chat_response, h1, h2]
  · intro data choices choice h1 h2 h3
    simp [chat_completion, httpPost, handle_response, parse_chat_response, h1, h2, h3]
  · intro data choices choice message h1 h2 h3 h4
    simp [chat_completion, httpPost, handle_response, parse_chat_response,
      h1, h2, h3, h4]
  · intro data choices choice message content h1 h2 h3 h4 h5
    simp [chat_completion, httpPost, handle_response, parse_chat_response,
      h1, h2, h3, h4, h5]
  · intro data choices choice message content model h1 h2 h3 h4 h5
    simp [chat_completion, httpPost, handle_response, parse_chat_response,
      h1, h2, h3, h4, h5]

/-- Witness for C5: a concrete well-formed 200 response is parsed into the
expected `ChatResponse`, and a 500 status is an error. -/
theorem chat_completion_spec_witness :
    (chat_completion (HttpOutcome.response 200 (some (PyVal.dict
        [("choices", PyVal.list [PyVal.dict
            [("message", PyVal.dict [("content", PyVal.str "hello")]),
             ("finish_reason", PyVal.str "stop")]]),
         ("model", PyVal.str "gpt-3.5-turbo")])))).1 =
      Except.ok ⟨PyVal.str "hello", PyVal.str "gpt-3.5-turbo", PyVal.dict [],
        PyVal.str "stop"⟩ ∧
    (chat_completion (HttpOutcome.response 500 none)).1 = Except.error () := by
  constructor
  · have h := ((((((((((chat_completion_spec 200 none).2).2).2).2).2).2).2).2).2)
      (PyVal.dict
        [("choices", PyVal.list [PyVal.dict
            [("message", PyVal.dict [("content", PyVal.str "hello")]),
             ("finish_reason", PyVal.str "stop")]]),
         ("model", PyVal.str "gpt-3.5-turbo")])
      (PyVal.list [PyVal.dict
          [("message", PyVal.dict [("content", PyVal.str "hello")]),
           ("finish_reason", PyVal.str "stop")]])
      (PyVal.dict [("message", PyVal.dict [("content", PyVal.str "hello")]),
          ("finish_reason", PyVal.str "stop")])
      (PyVal.dict [("content", PyVal.str "hello")])
      (PyVal.str "hello") (PyVal.str "gpt-3.5-turbo")
      rfl rfl rfl rfl rfl
    exact h
  · exact ((chat_completion_spec 500 none).2).2.1 (by decide)

/-- C6: each call to `OpenAIAPIClient.chat_completion` issues exactly one
HTTP request, whatever the outcome: a failed request is never retried; the
call returns a response or an error without a second request. -/
theorem chat_completion_single_request (world : HttpOutcome) :
    (chat_completion world).2 = 1 := rfl

/-- Outcome of the Google cloud recognition call
(`recognizer.recognize_google`, voice_handler.py:271): a transcript, an
`UnknownValueError` (speech not understood), or a `RequestError` (the
recognition service failed). -/
inductive RecogOutcome where
  | recognized (text : String)
  | unknownValue
  | requestError
deriving DecidableEq

/-- Which engine produced a transcript. -/
inductive RecogEngine where
  | google
  | sphinx
deriving DecidableEq

/-- How `VoiceHandler._recognize_audio` ends: a transcript delivered to the
`on_speech_recognized` callback, or one of the two exceptions it can
re-raise. -/
inductive RecognizeResult where
  | ok (engine : RecogEngine) (text : String)
  | raisedUnknownValue
  | raisedRequestError
deriving DecidableEq

/-- A run of `_recognize_audio`: its result, how many times the local Sphinx
fallback was attempted, and the transcripts delivered to the recognized
callback. -/
structure RecognizeRun where
  result : RecognizeResult
  sphinxAttempts : Nat
  recognizedTexts : List String
deriving DecidableEq

/-- Embedding of `VoiceHandler._recognize_audio` (voice_handler.py:262-289):
Google success delivers the transcript; `UnknownValueError` is re-raised
untouched; on `RequestError` the Sphinx engine is tried once (`sphinx` is
its outcome: a transcript, or `none` for any exception, caught by the bare
`except`), and only if that also fails is a `RequestError` raised. -/
def recognize_audio (google : RecogOutcome) (sphinx : Option String) :
    RecognizeRun :=
  match google with
  | RecogOutcome.recognized t => ⟨RecognizeResult.ok RecogEngine.google t, 0, [t]⟩
  | RecogOutcome.unknownValue => ⟨RecognizeResult.raisedUnknownValue, 0, []⟩
  | RecogOutcome.requestError =>
      match sphinx with
      | some t => ⟨RecognizeResult.ok RecogEngine.sphinx t, 1, [t]⟩
      | none => ⟨RecognizeResult.raisedRequestError, 1, []⟩

/-- One iteration of the `listen_worker` loop around `_recognize_audio`
(voice_handler.py:214-244): whether the loop keeps listening afterwards, and
whether the `on_speech_error` callback was invoked. `UnknownValueError` and
`RequestError` are caught inside the loop, report through the callback and
continue; only an unexpected exception breaks the loop, and
`_recognize_audio` raises no other kind. -/
def listen_iteration (r : RecognizeRun) : Bool × Bool :=
  match r.result with
  | RecognizeResult.ok _ _ => (true, false)
  | RecognizeResult.raisedUnknownValue => (true, true)
  | RecognizeResult.raisedRequestError => (true, true)

/-- C7: when cloud recognition fails with a recognition-service error,
`_recognize_audio` attempts exactly one Sphinx fallback; it raises a service
error precisely when that fallback also fails, and in that case the
listening loop catches the error, reports it through the error callback, and
keeps listening instead of aborting. -/
theorem recognize_audio_fallback (sphinx : Option String) :
    (recognize_audio RecogOutcome.requestError sphinx).sphinxAttempts = 1 ∧
    ((recognize_audio RecogOutcome.requestError sphinx).result =
        RecognizeResult.raisedRequestError ↔ sphinx = none) ∧
    (listen_iteration (recognize_audio RecogOutcome.requestError sphinx)).1 = true ∧
    (sphinx = none →
        (listen_iteration (recognize_audio RecogOutcome.requestError sphinx)).2
          = true) := by
  cases sphinx <;> simp [recognize_audio, listen_iteration]

/-- Witness for C7 at a failing Sphinx fallback. -/
theorem recognize_audio_fallback_witness :
    (recognize_audio RecogOutcome.requestError none).sphinxAttempts = 1 ∧
    ((recognize_audio RecogOutcome.requestError none).result =
        RecognizeResult.raisedRequestError ↔ (none : Option String) = none) ∧
    (listen_iteration (recognize_audio RecogOutcome.requestError none)).1 = true ∧
    (listen_iteration (recognize_audio RecogOutcome.requestError none)).2 = true := by
  have h := recognize_audio_fallback none
  exact ⟨h.1, h.2.1, h.2.2.1, h.2.2.2 rfl⟩

/-- The `VoiceHandler` fields `start_listening` reads and writes
(voice_handler.py:196-260): whether recognition is enabled and initialized
(`recognizer`/`microphone` not `None`) and the `_is_listening` flag. -/
structure VoiceState where
  recognition_enabled : Bool
  hasRecognizer : Bool
  hasMicrophone : Bool
  listeningFlag : Bool
deriving DecidableEq

/-- Embedding of `VoiceHandler.start_listening` (voice_handler.py:196-254):
return unchanged (spawning no worker) when recognition is unavailable or a
session is already listening; otherwise set `_is_listening` and spawn one
listening worker thread. The second component counts spawned workers. -/
def start_listening (s : VoiceState) : VoiceState × Nat :=
  if !s.recognition_enabled || !s.hasRecognizer || !s.hasMicrophone then (s, 0)
  else if s.listeningFlag then (s, 0)
  else ({ s with listeningFlag := true }, 1)

/-- C8: at most one microphone listening session is active at a time — a call
to `VoiceHandler.start_listening` while `is_listening` is already true
returns without spawning a second listening worker and without changing the
handler's state. -/
theorem start_listening_guard (s : VoiceState) (h : s.listeningFlag = true) :
    start_listening s = (s, 0) := by
  unfold start_listening
  by_cases hdis :
      (!s.recognition_enabled || !s.hasRecognizer || !s.hasMicrophone) = true
  · rw [if_pos hdis]
  · rw [if_neg hdis, if_pos h]

/-- Witness for C8 on a fully initialized, already-listening handler. -/
theorem start_listening_guard_witness :
    start_listening ⟨true, true, true, true⟩ = (⟨true, true, true, true⟩, 0) :=
  start_listening_guard ⟨true, true, true, true⟩ rfl
